import Mathlib

/-!
Verification of the Google Drive audio browser (src/app.py) against its
specification.  Python strings are embedded as lists of characters, byte
strings as lists of naturals, dictionaries with optional keys as structures
with `Option` fields.  The Streamlit script's top level is embedded as a
function from the secret store to the trace of UI / collaborator events it
emits.
-/

namespace DriveAudio

/-- Lowering a Python string with str.lower (ASCII range, which covers the
pattern letters and all names used by the spec's examples). -/
def lowerName (s : List Char) : List Char := s.map Char.toLower

/-- Raw entry of a Drive files().list response, embedding the Python dict
with `fields="files(id,name,mimeType,size)"`: every key may be absent. -/
structure RawEntry where
  id : Option (List Char)
  name : Option (List Char)
  mimeType : Option (List Char)
  size : Option Nat
deriving DecidableEq, Repr

/-- Suffix pattern the spec describes for audio files: the lowercased name
ends with ".wav" or ".wave". -/
def audioSuffixOk (n : List Char) : Bool :=
  ".wav".toList.isSuffixOf (lowerName n) || ".wave".toList.isSuffixOf (lowerName n)

/-- Embedding of `AUDIO_EXT_RE.search(n)` for
`AUDIO_EXT_RE = re.compile(r"\.(wav|wave)$", re.IGNORECASE)` (src/app.py line
12).  Python's `re.search` succeeds iff a match of `\.(wav|wave)` ends where
`$` matches, and `$` (without re.MULTILINE) matches at the end of the string
or just before a newline that is the last character.  Hence the search
succeeds iff the lowercased name ends with ".wav" or ".wave", or with
".wav\n" or ".wave\n". -/
def audioExtSearch (n : List Char) : Bool :=
  ".wav".toList.isSuffixOf (lowerName n) ||
  ".wave".toList.isSuffixOf (lowerName n) ||
  ".wav\n".toList.isSuffixOf (lowerName n) ||
  ".wave\n".toList.isSuffixOf (lowerName n)

/-- Guard of the comprehension on src/app.py line 53:
`f.get("name") and AUDIO_EXT_RE.search(f["name"])`.  `f.get("name")` is
falsy when the key is absent or the name is the empty string. -/
def wavGuard (f : RawEntry) : Bool :=
  match f.name with
  | none => false
  | some n => !n.isEmpty && audioExtSearch n

/-- Client-side filtering step of `list_wav_files` (src/app.py line 53):
`wavs = [f for f in files if f.get("name") and AUDIO_EXT_RE.search(f["name"])]`. -/
def selectWavs (files : List RawEntry) : List RawEntry := files.filter wavGuard

/-- File record as seen by the browse session (names are present there:
they come out of `selectWavs`). -/
structure FileRef where
  id : List Char
  name : List Char
deriving DecidableEq, Repr

/-- Python whitespace characters, the set stripped by str.strip(). -/
def isPySpace (c : Char) : Bool :=
  c = ' ' || c = '\t' || c = '\n' || c = '\r' || c = '\x0b' || c = '\x0c'

/-- Truthiness of `query.strip()` (src/app.py line 126): the stripped string
is non-empty iff the query has a non-whitespace character. -/
def stripTruthy (q : List Char) : Bool := q.any (fun c => !isPySpace c)

/-- Embedding of the Python substring test `needle in hay`: some contiguous
slice of `hay` equals `needle`. -/
def containsSub (hay needle : List Char) : Bool :=
  (List.range (hay.length + 1)).any (fun i => needle.isPrefixOf (hay.drop i))

/-- Search filter of the browse session (src/app.py lines 126-127):
`if query.strip(): files = [f for f in files if query.lower() in f["name"].lower()]`. -/
def applyQueryFilter (query : List Char) (files : List FileRef) : List FileRef :=
  if stripTruthy query then
    files.filter (fun f => containsSub (lowerName f.name) (lowerName query))
  else files

/-- Predicate the spec states for the search filter: the file's full name
contains the search text as a case-insensitive substring. -/
def specSearchPred (query : List Char) (f : FileRef) : Bool :=
  containsSub (lowerName f.name) (lowerName query)

/-- Pagination count (src/app.py line 133):
`page_count = max(1, (total + page_size - 1) // page_size)`. -/
def page_count (total page_size : Nat) : Nat :=
  max 1 ((total + page_size - 1) / page_size)

/-- Visible page slice (src/app.py lines 135-137):
`start = (page - 1) * page_size; end = min(start + page_size, total);
files_page = files[start:end]` - a Python slice with non-negative bounds is
drop-then-take. -/
def files_page {α : Type} (files : List α) (page_size page : Nat) : List α :=
  let total := files.length
  let start := (page - 1) * page_size
  let stop := min (start + page_size) total
  (files.drop start).take (stop - start)

/-- Ceiling division as the spec words it: ceil(a / b) over naturals. -/
def ceilDivSpec (a b : Nat) : Nat :=
  a / b + (if a % b = 0 then 0 else 1)

/-- Slice of the spec's form: the elements with indices in the interval
from lo (inclusive) to hi (exclusive). -/
def sliceSpec {α : Type} (files : List α) (lo hi : Nat) : List α :=
  (files.take hi).drop lo

/-- State of the chunked downloader: the chunks still to be delivered,
each with the `done` flag `next_chunk` returns alongside it. -/
def ChunkReader : Type := List (List Nat × Bool)

/-- Download loop of `download_file_bytes` (src/app.py lines 67-71):
`done = False; while not done: _, done = downloader.next_chunk(); return
fh.getvalue()`.  Each `next_chunk` appends one chunk to the buffer and
reports whether the download finished; a reader that runs out of chunks
without a done signal is a collaborator failure, returned as `none`. -/
def downloadLoop : ChunkReader → List Nat → Option (List Nat)
  | [], _ => none
  | (chunk, done) :: rest, acc =>
      if done then some (acc ++ chunk) else downloadLoop rest (acc ++ chunk)

/-- Whole-file fetch: run the download loop on an empty buffer. -/
def download_file_bytes (reader : ChunkReader) : Option (List Nat) :=
  downloadLoop reader []

/-- Reader that yields the given chunks in order, flagging only the last
one as done. -/
def mkReader (chunks : List (List Nat)) (lastChunk : List Nat) : ChunkReader :=
  chunks.map (fun c => (c, false)) ++ [(lastChunk, true)]

/-- Cache entry, value plus fetch timestamp. -/
structure CacheEntry (α : Type) where
  value : α
  fetchedAt : Nat
deriving DecidableEq, Repr

/-- One cache table: newest entries in front, looked up by key. -/
def CacheTable (κ α : Type) : Type := List (κ × CacheEntry α)

/-- Modelled from the spec: the read-through per-key TTL cache that
`st.cache_data(ttl=...)` wraps around the listing and download functions
(the decorator's implementation lives in the Streamlit library, outside this
repository).  On a non-stale hit the cached value is returned with no
collaborator call; otherwise the fetcher is called once and the result
stored with the current timestamp.  The third component counts collaborator
calls made by this invocation. -/
def cachedCall {κ α : Type} [BEq κ] (ttl : Nat) (fetch : κ → α) (now : Nat)
    (table : CacheTable κ α) (k : κ) : α × CacheTable κ α × Nat :=
  match table.lookup k with
  | some e =>
      if now - e.fetchedAt < ttl then (e.value, table, 0)
      else ((fetch k), (k, ⟨fetch k, now⟩) :: table, 1)
  | none => ((fetch k), (k, ⟨fetch k, now⟩) :: table, 1)

/-- Cached wav-file listing (src/app.py lines 38-54): the raw listing is
fetched from the FileStore, filtered by `selectWavs`, and memoised with a
60 second TTL keyed by the folder id. -/
def list_wav_files_cached (fetchRaw : List Char → List RawEntry) (now : Nat)
    (table : CacheTable (List Char) (List RawEntry)) (folderId : List Char) :
    List RawEntry × CacheTable (List Char) (List RawEntry) × Nat :=
  cachedCall 60 (fun k => selectWavs (fetchRaw k)) now table folderId

/-- Cached subfolder listing (src/app.py lines 22-36): the raw listing is
memoised with a 60 second TTL keyed by the root folder id. -/
def list_subfolders_cached (fetch : List Char → List RawEntry) (now : Nat)
    (table : CacheTable (List Char) (List RawEntry)) (rootId : List Char) :
    List RawEntry × CacheTable (List Char) (List RawEntry) × Nat :=
  cachedCall 60 fetch now table rootId

/-- Cached byte fetch (src/app.py lines 56-71): the downloaded bytes are
memoised with a 3600 second TTL keyed by the file id. -/
def download_file_bytes_cached (fetch : List Char → List Nat) (now : Nat)
    (table : CacheTable (List Char) (List Nat)) (fileId : List Char) :
    List Nat × CacheTable (List Char) (List Nat) × Nat :=
  cachedCall 3600 fetch now table fileId

/-- The three cache tables of the catalog service: subfolder listings,
wav-file listings, and byte payloads. -/
structure CatalogCaches where
  subfolders : CacheTable (List Char) (List RawEntry)
  wavFiles : CacheTable (List Char) (List RawEntry)
  fileBytes : CacheTable (List Char) (List Nat)

/-- Modelled from the spec: the manual refresh handler (src/app.py lines
102-106) calls `list_subfolders.clear()`, `list_wav_files.clear()` and
`st.cache_data.clear()`, which empties all three cache tables. -/
def invalidateAll (_c : CatalogCaches) : CatalogCaches := ⟨[], [], []⟩

/-- Events the Streamlit script emits while it runs: static rendering,
interactive widgets, error messages, a script stop, an uncaught exception,
and calls to the FileStore collaborator. -/
inductive Ev where
  | pageConfig : Ev
  | staticRender : String → Ev
  | widget : String → Ev
  | errorMsg : String → Ev
  | stopScript : Ev
  | keyError : String → Ev
  | storeCall : String → Ev
deriving DecidableEq, Repr

/-- The Streamlit secret store: the service-account credential material and
the root folder id, either of which may be absent (the root id may also be
present but empty, which `if not root_id` treats the same way). -/
structure Secrets where
  gcpServiceAccount : Option Unit
  rootFolderId : Option String
deriving DecidableEq, Repr

/-- Embedding of `get_drive_service` (src/app.py lines 14-20) as the events
it emits: `st.secrets["gcp_service_account"]` raises KeyError when the key
is absent; otherwise `build` constructs the client without contacting the
FileStore. -/
def getDriveServiceEvents (s : Secrets) : List Ev × Bool :=
  match s.gcpServiceAccount with
  | none => ([Ev.keyError "gcp_service_account"], false)
  | some _ => ([], true)

/-- Embedding of the startup prefix of the script top level (src/app.py
lines 7-108): page config and title render, the root-id check with
`st.error` / `st.stop`, the sidebar refresh button (not pressed), then the
first listing call, which enters `get_drive_service` before any FileStore
request is issued.  The trace stops at the first FileStore call: the claims
about startup configuration only concern this prefix. -/
def runApp (s : Secrets) : List Ev :=
  [Ev.pageConfig, Ev.staticRender "title"] ++
  (match s.rootFolderId with
   | none => [Ev.errorMsg "Missing GDRIVE_ROOT_FOLDER_ID in Streamlit secrets.", Ev.stopScript]
   | some rid =>
     if rid = "" then
       [Ev.errorMsg "Missing GDRIVE_ROOT_FOLDER_ID in Streamlit secrets.", Ev.stopScript]
     else
       [Ev.widget "Refresh now"] ++
       (let (evs, ok) := getDriveServiceEvents s
        evs ++ (if ok then [Ev.storeCall "files.list"] else [])))

/-- An event is a FileStore call. -/
def isStoreCall : Ev → Bool
  | Ev.storeCall _ => true
  | _ => false

/-- An event is an interactive widget. -/
def isWidget : Ev → Bool
  | Ev.widget _ => true
  | _ => false

/-- An event is a user-visible error message. -/
def isErrorMsg : Ev → Bool
  | Ev.errorMsg _ => true
  | _ => false

/-- An event is a script stop. -/
def isStop : Ev → Bool
  | Ev.stopScript => true
  | _ => false

/-- An event is an uncaught KeyError. -/
def isKeyError : Ev → Bool
  | Ev.keyError _ => true
  | _ => false

/-- The trace halts with a clear message: an error message is shown and the
script is stopped. -/
def clearHalt (tr : List Ev) : Bool :=
  tr.any isErrorMsg && tr.any isStop

/-- Entry of the Drive store as the FileStore sees it, carrying the fields
the listing queries mention. -/
structure DriveFile where
  id : List Char
  name : List Char
  mimeType : List Char
  trashed : Bool
  parents : List (List Char)
deriving DecidableEq, Repr

/-- Embedding of the query string built in `list_subfolders` (src/app.py
lines 25-29): an entry satisfies
`'{root}' in parents and mimeType = 'application/vnd.google-apps.folder'
and trashed = false` iff the root id is among its parents, its MIME type is
the folder type, and it is not trashed. -/
def subfoldersQ (rootId : List Char) (f : DriveFile) : Bool :=
  f.parents.contains rootId &&
  f.mimeType = "application/vnd.google-apps.folder".toList &&
  f.trashed = false

/-- A files().list request: the filter, the requested fields, the page
size, and the ordering. -/
structure ListReq where
  q : DriveFile → Bool
  fields : String
  pageSize : Nat
  orderBy : String

/-- The request `list_subfolders` issues (src/app.py lines 30-35). -/
def listSubfoldersReq (rootId : List Char) : ListReq :=
  { q := subfoldersQ rootId
    fields := "files(id,name)"
    pageSize := 1000
    orderBy := "name" }

/-- Lexicographic order on names by character code, the order the FileStore
uses for `orderBy="name"`. -/
def nameLeChars : List Char → List Char → Bool
  | [], _ => true
  | _ :: _, [] => false
  | a :: as, b :: bs =>
      if a.val < b.val then true
      else if b.val < a.val then false
      else nameLeChars as bs

/-- Insert an entry into a name-sorted list. -/
def insertByName (f : DriveFile) : List DriveFile → List DriveFile
  | [] => [f]
  | g :: gs => if nameLeChars f.name g.name then f :: g :: gs
               else g :: insertByName f gs

/-- Sort entries by name (insertion sort). -/
def sortByName : List DriveFile → List DriveFile
  | [] => []
  | f :: fs => insertByName f (sortByName fs)

/-- Modelled from the spec: the FileStore collaborator's listChildren, which
returns the entries of the store satisfying the request's filter, ordered by
name when requested, bounded by the request's page size. -/
def fileStoreList (store : List DriveFile) (req : ListReq) : List DriveFile :=
  (((if req.orderBy = "name" then sortByName store else store).filter req.q).take
    req.pageSize)

/-- The subfolder listing of src/app.py lines 23-36: issue the request built
from the root id against the FileStore. -/
def list_subfolders (store : List DriveFile) (rootId : List Char) : List DriveFile :=
  fileStoreList store (listSubfoldersReq rootId)

/-! Theorems. -/

/-- Claim C1 fails as stated: Python's `$` also matches just before a
terminal newline, so the raw entry named "x.wav\n" passes `AUDIO_EXT_RE`
and is returned by `list_wav_files`, yet its name's case-insensitive suffix
is neither ".wav" nor ".wave". -/
theorem claim1_counterexample :
    selectWavs [⟨some "i".toList, some "x.wav\n".toList, none, none⟩]
      = [⟨some "i".toList, some "x.wav\n".toList, none, none⟩] ∧
    audioSuffixOk "x.wav\n".toList = false := by decide

/-- Claim C1, amended: every FileRef returned by `list_wav_files` has a
name whose lowercase form ends with ".wav" or ".wave", or with ".wav" or
".wave" followed by a single terminal newline; every raw entry rejected by
the guard is absent from the result. -/
theorem claim1_amended (files : List RawEntry) (f : RawEntry) :
    (f ∈ selectWavs files →
      ∃ n, f.name = some n ∧
        (audioSuffixOk n = true ∨
         ".wav\n".toList.isSuffixOf (lowerName n) = true ∨
         ".wave\n".toList.isSuffixOf (lowerName n) = true)) ∧
    (f ∈ files → wavGuard f = false → f ∉ selectWavs files) := by
  constructor
  · intro h
    rw [selectWavs, List.mem_filter] at h
    obtain ⟨-, hg⟩ := h
    unfold wavGuard at hg
    cases hfn : f.name with
    | none => rw [hfn] at hg; cases hg
    | some n =>
      rw [hfn] at hg
      refine ⟨n, rfl, ?_⟩
      have h2 := ((Bool.and_eq_true _ _).mp hg).2
      unfold audioExtSearch at h2
      unfold audioSuffixOk
      rcases (Bool.or_eq_true _ _).mp h2 with h3 | h3
      · rcases (Bool.or_eq_true _ _).mp h3 with h4 | h4
        · rcases (Bool.or_eq_true _ _).mp h4 with h5 | h5
          · exact Or.inl (by rw [h5]; rfl)
          · exact Or.inl (by rw [h5, Bool.or_true])
        · exact Or.inr (Or.inl h4)
      · exact Or.inr (Or.inr h3)
  · intro _ hguard hsel
    rw [selectWavs, List.mem_filter] at hsel
    rw [hguard] at hsel
    cases hsel.2

/-- Witness for the amended claim C1 at concrete inputs. -/
theorem claim1_amended_witness :
    (∃ n, (⟨some "i".toList, some "a.wav".toList, none, none⟩ : RawEntry).name = some n ∧
      (audioSuffixOk n = true ∨
       ".wav\n".toList.isSuffixOf (lowerName n) = true ∨
       ".wave\n".toList.isSuffixOf (lowerName n) = true)) ∧
    (⟨some "j".toList, some "b.txt".toList, none, none⟩ : RawEntry) ∉
      selectWavs [⟨some "j".toList, some "b.txt".toList, none, none⟩] :=
  ⟨(claim1_amended [⟨some "i".toList, some "a.wav".toList, none, none⟩]
      ⟨some "i".toList, some "a.wav".toList, none, none⟩).1 (by decide),
   (claim1_amended [⟨some "j".toList, some "b.txt".toList, none, none⟩]
      ⟨some "j".toList, some "b.txt".toList, none, none⟩).2 (by decide) (by decide)⟩

/-- Claim C10: `list_wav_files` silently drops raw entries whose name is
missing or empty, and every entry it returns has a present, non-empty
name. -/
theorem claim10_name_guard (files : List RawEntry) (f : RawEntry) :
    (f ∈ selectWavs files → ∃ n, f.name = some n ∧ n ≠ []) ∧
    (f ∈ files → (f.name = none ∨ f.name = some []) → f ∉ selectWavs files) := by
  constructor
  · intro h
    rw [selectWavs, List.mem_filter] at h
    obtain ⟨-, hg⟩ := h
    unfold wavGuard at hg
    cases hfn : f.name with
    | none => rw [hfn] at hg; cases hg
    | some n =>
      rw [hfn] at hg
      refine ⟨n, rfl, ?_⟩
      have h2 := ((Bool.and_eq_true _ _).mp hg).1
      intro hnil
      rw [hnil] at h2
      cases h2
  · intro _ hname hsel
    rw [selectWavs, List.mem_filter] at hsel
    have hg := hsel.2
    unfold wavGuard at hg
    rcases hname with h0 | h0 <;> rw [h0] at hg <;> cases hg

/-- Witness for claim C10 at concrete inputs. -/
theorem claim10_name_guard_witness :
    (∃ n, (⟨some "i".toList, some "c.wave".toList, none, none⟩ : RawEntry).name = some n ∧ n ≠ []) ∧
    (⟨some "j".toList, none, none, none⟩ : RawEntry) ∉
      selectWavs [⟨some "j".toList, none, none, none⟩] :=
  ⟨(claim10_name_guard [⟨some "i".toList, some "c.wave".toList, none, none⟩]
      ⟨some "i".toList, some "c.wave".toList, none, none⟩).1 (by decide),
   (claim10_name_guard [⟨some "j".toList, none, none, none⟩]
      ⟨some "j".toList, none, none, none⟩).2 (by decide) (Or.inl rfl)⟩

/-- Claim C3 fails as stated: a whitespace-only search text (here a single
space) has a falsy `strip()`, so the code skips filtering and returns the
file "a.wav" even though its name does not contain the space character. -/
theorem claim3_counterexample :
    applyQueryFilter " ".toList [⟨"i".toList, "a.wav".toList⟩]
      = [⟨"i".toList, "a.wav".toList⟩] ∧
    List.filter (specSearchPred " ".toList) [(⟨"i".toList, "a.wav".toList⟩ : FileRef)] = [] ∧
    applyQueryFilter " ".toList [⟨"i".toList, "a.wav".toList⟩]
      ≠ List.filter (specSearchPred " ".toList) [(⟨"i".toList, "a.wav".toList⟩ : FileRef)] := by
  decide

/-- Claim C3, amended: when the search text contains a non-whitespace
character, the filtered list is exactly the files whose full name contains
the search text as a case-insensitive substring; when the search text is
empty or whitespace-only, no filtering is applied and the full list is
returned. -/
theorem claim3_amended (query : List Char) (files : List FileRef) :
    (stripTruthy query = true →
      applyQueryFilter query files = files.filter (specSearchPred query)) ∧
    (stripTruthy query = false → applyQueryFilter query files = files) := by
  constructor
  · intro h
    rw [applyQueryFilter, if_pos h]
    rfl
  · intro h
    simp only [applyQueryFilter, h, Bool.false_eq_true, if_false]

/-- Witness for the amended claim C3 on the spec's example. -/
theorem claim3_amended_witness :
    applyQueryFilter "take".toList
      [⟨"1".toList, "drum_loop.wav".toList⟩, ⟨"2".toList, "Vocal_Take1.wav".toList⟩,
       ⟨"3".toList, "noise.WAVE".toList⟩]
      = List.filter (specSearchPred "take".toList)
          [⟨"1".toList, "drum_loop.wav".toList⟩, ⟨"2".toList, "Vocal_Take1.wav".toList⟩,
           ⟨"3".toList, "noise.WAVE".toList⟩] ∧
    List.filter (specSearchPred "take".toList)
      [(⟨"1".toList, "drum_loop.wav".toList⟩ : FileRef), ⟨"2".toList, "Vocal_Take1.wav".toList⟩,
       ⟨"3".toList, "noise.WAVE".toList⟩]
      = [⟨"2".toList, "Vocal_Take1.wav".toList⟩] :=
  ⟨(claim3_amended "take".toList
      [⟨"1".toList, "drum_loop.wav".toList⟩, ⟨"2".toList, "Vocal_Take1.wav".toList⟩,
       ⟨"3".toList, "noise.WAVE".toList⟩]).1 (by decide),
   by decide⟩

/-- For a positive divisor, the add-and-floor form of the source equals the
ceiling division the spec words. -/
theorem ceil_helper (a b : Nat) (hb : 0 < b) : (a + b - 1) / b = ceilDivSpec a b := by
  obtain ⟨q, r, hr, rfl⟩ : ∃ q r, r < b ∧ a = b * q + r :=
    ⟨a / b, a % b, Nat.mod_lt _ hb, (Nat.div_add_mod a b).symm⟩
  unfold ceilDivSpec
  rcases Nat.eq_zero_or_pos r with h0 | hpos
  · subst h0
    have h1 : b * q + 0 + b - 1 = b * q + (b - 1) := by omega
    rw [h1, Nat.mul_add_div hb, Nat.div_eq_of_lt (by omega), Nat.add_zero,
      Nat.add_zero, Nat.mul_mod_right, if_pos rfl, Nat.add_zero,
      Nat.mul_div_cancel_left q hb]
  · obtain ⟨r', rfl⟩ : ∃ r', r = r' + 1 := ⟨r - 1, by omega⟩
    have h1 : b * q + (r' + 1) + b - 1 = b * (q + 1) + r' := by
      rw [Nat.mul_succ]; omega
    rw [h1, Nat.mul_add_div hb, Nat.div_eq_of_lt (by omega), Nat.add_zero,
      Nat.mul_add_div hb, Nat.div_eq_of_lt hr, Nat.add_zero, Nat.mul_add_mod,
      Nat.mod_eq_of_lt hr, if_neg (by omega)]

/-- Claim C2: for a positive page size, `page_count` is the maximum of 1
and the ceiling of total over page size, and for every page number at least
1 the visible page is exactly the slice of the filtered list from
(p-1)*pageSize (inclusive) to min(total, p*pageSize) (exclusive). -/
theorem claim2_pagination (page_size : Nat) (hps : 1 ≤ page_size) :
    (∀ total, page_count total page_size = max 1 (ceilDivSpec total page_size)) ∧
    (∀ (α : Type) (files : List α) (p : Nat), 1 ≤ p →
      files_page files page_size p
        = sliceSpec files ((p - 1) * page_size) (min (p * page_size) files.length)) := by
  constructor
  · intro total
    unfold page_count
    rw [ceil_helper total page_size hps]
  · intro α files p hp
    simp only [files_page, sliceSpec]
    have hpe : (p - 1) * page_size + page_size = p * page_size := by
      obtain ⟨q, rfl⟩ : ∃ q, p = q + 1 := ⟨p - 1, by omega⟩
      rw [Nat.add_sub_cancel, Nat.succ_mul]
    rw [hpe, List.drop_take]

set_option maxRecDepth 4000 in
/-- Witness for claim C2 on the spec's pagination example: 125 items at
page size 50 give 3 pages, page 1 is the first 50 items and page 3 the 25
items from index 100. -/
theorem claim2_pagination_witness :
    page_count 125 50 = max 1 (ceilDivSpec 125 50) ∧
    files_page (List.range 125) 50 3
      = sliceSpec (List.range 125) ((3 - 1) * 50) (min (3 * 50) (List.range 125).length) ∧
    page_count 125 50 = 3 ∧
    files_page (List.range 125) 50 1 = List.range 50 ∧
    files_page (List.range 125) 50 3 = (List.range 125).drop 100 ∧
    (files_page (List.range 125) 50 3).length = 25 :=
  ⟨(claim2_pagination 50 (by decide)).1 125,
   (claim2_pagination 50 (by decide)).2 Nat (List.range 125) 3 (by decide),
   by decide, by decide, by decide, by decide⟩

/-- Claim C8: with zero filtered items, `page_count` is 1 and the visible
page is empty, for every page size in the widget range and every page
number. -/
theorem claim8_empty_total (page_size page : Nat) (files : List FileRef)
    (h1 : 10 ≤ page_size) (h2 : page_size ≤ 200) (hf : files.length = 0) :
    page_count 0 page_size = 1 ∧ files_page files page_size page = [] := by
  constructor
  · unfold page_count
    rw [Nat.div_eq_of_lt (by omega)]
    omega
  · rw [List.length_eq_zero.mp hf]
    simp [files_page]

/-- Witness for claim C8 at page size 50, page 7, on the empty list. -/
theorem claim8_empty_total_witness :
    page_count 0 50 = 1 ∧ files_page ([] : List FileRef) 50 7 = [] :=
  claim8_empty_total 50 7 [] (by decide) (by decide) (by decide)

/-- The download loop over a reader that signals done only with the final
chunk returns the buffer followed by all chunks in order. -/
theorem downloadLoop_mkReader (chunks : List (List Nat)) (lastChunk acc : List Nat) :
    downloadLoop (mkReader chunks lastChunk) acc
      = some (acc ++ chunks.flatten ++ lastChunk) := by
  induction chunks generalizing acc with
  | nil => simp [mkReader, downloadLoop]
  | cons c cs ih =>
    show downloadLoop ((c, false) :: mkReader cs lastChunk) acc = _
    rw [downloadLoop, if_neg (by simp), ih]
    simp [List.append_assoc]

/-- Claim C5: for every finite chunk sequence ending in a terminal done
signal, `download_file_bytes` returns the in-order concatenation of all
chunks; in particular chunks AB, CD, EF yield ABCDEF. -/
theorem claim5_download (chunks : List (List Nat)) (lastChunk : List Nat) :
    download_file_bytes (mkReader chunks lastChunk)
      = some (chunks.flatten ++ lastChunk) ∧
    download_file_bytes (mkReader [[65, 66], [67, 68]] [69, 70])
      = some [65, 66, 67, 68, 69, 70] := by
  constructor
  · rw [download_file_bytes, downloadLoop_mkReader]
    rw [List.nil_append]
  · decide

/-- Claim C6: starting from an empty cache, the first call to the cached
wav-file listing performs exactly one collaborator call, and a second call
within the TTL window performs none and returns the identical result. -/
theorem claim6_cache_idempotent (fetchRaw : List Char → List RawEntry)
    (folderId : List Char) (t1 t2 : Nat) (h : t2 - t1 < 60) :
    (list_wav_files_cached fetchRaw t1 [] folderId).2.2 = 1 ∧
    (list_wav_files_cached fetchRaw t2
      (list_wav_files_cached fetchRaw t1 [] folderId).2.1 folderId).2.2 = 0 ∧
    (list_wav_files_cached fetchRaw t2
      (list_wav_files_cached fetchRaw t1 [] folderId).2.1 folderId).1
      = (list_wav_files_cached fetchRaw t1 [] folderId).1 := by
  simp only [list_wav_files_cached, cachedCall, List.lookup, beq_self_eq_true,
    if_pos h]
  exact ⟨trivial, trivial, trivial⟩

/-- Witness for claim C6 with a concrete fetcher, folder id and clock. -/
theorem claim6_cache_idempotent_witness :
    (list_wav_files_cached (fun _ => []) 0 [] "f".toList).2.2 = 1 ∧
    (list_wav_files_cached (fun _ => []) 30
      (list_wav_files_cached (fun _ => []) 0 [] "f".toList).2.1 "f".toList).2.2 = 0 ∧
    (list_wav_files_cached (fun _ => []) 30
      (list_wav_files_cached (fun _ => []) 0 [] "f".toList).2.1 "f".toList).1
      = (list_wav_files_cached (fun _ => []) 0 [] "f".toList).1 :=
  claim6_cache_idempotent (fun _ => []) "f".toList 0 30 (by decide)

/-- Claim C7: the manual refresh clears all three cache tables, so the next
listing or fetch call on any of them performs a collaborator call no matter
what the prior tables held and no matter the current time. -/
theorem claim7_invalidate_all (c : CatalogCaches)
    (fetchSub fetchWav : List Char → List RawEntry)
    (fetchBytes : List Char → List Nat)
    (now1 now2 now3 : Nat) (k1 k2 k3 : List Char) :
    invalidateAll c = ⟨[], [], []⟩ ∧
    (list_subfolders_cached fetchSub now1 (invalidateAll c).subfolders k1).2.2 = 1 ∧
    (list_wav_files_cached fetchWav now2 (invalidateAll c).wavFiles k2).2.2 = 1 ∧
    (download_file_bytes_cached fetchBytes now3 (invalidateAll c).fileBytes k3).2.2 = 1 :=
  ⟨rfl, rfl, rfl, rfl⟩

/-- Claim C4 fails as stated: with the credential material absent and the
root id present, the script renders interactive widgets, never shows an
error message or stops cleanly, and dies with an uncaught KeyError instead
of halting with a clear message before any UI interaction. -/
theorem claim4_counterexample :
    clearHalt (runApp ⟨none, some "root"⟩) = false ∧
    (runApp ⟨none, some "root"⟩).any isWidget = true ∧
    (runApp ⟨none, some "root"⟩).any isKeyError = true ∧
    (runApp ⟨none, some "root"⟩).any isStoreCall = false := by decide

/-- Claim C4, amended: a missing (or empty) root folder id halts the script
with a clear message and a stop, before any interactive widget and before
any FileStore call; missing credential material also keeps the FileStore
from ever being called, but the script dies with an uncaught KeyError after
the sidebar widgets render, without a clear message or clean stop. -/
theorem claim4_amended (s : Secrets) :
    ((s.rootFolderId = none ∨ s.rootFolderId = some "") →
      clearHalt (runApp s) = true ∧ (runApp s).any isStoreCall = false ∧
      (runApp s).any isWidget = false) ∧
    (s.gcpServiceAccount = none → (runApp s).any isStoreCall = false) ∧
    ((s.gcpServiceAccount = none ∧ ∃ rid, s.rootFolderId = some rid ∧ rid ≠ "") →
      clearHalt (runApp s) = false ∧ (runApp s).any isKeyError = true) := by
  obtain ⟨g, r⟩ := s
  refine ⟨?_, ?_, ?_⟩
  · rintro (h | h) <;> simp only at h <;> subst h <;>
      exact ⟨rfl, rfl, rfl⟩
  · intro h
    simp only at h
    subst h
    cases r with
    | none => decide
    | some rid =>
      by_cases hr : rid = ""
      · subst hr; decide
      · simp [runApp, hr, getDriveServiceEvents, isStoreCall, isWidget]
  · rintro ⟨hg, rid, hr, hrne⟩
    simp only at hg hr
    subst hg
    subst hr
    simp [runApp, hrne, getDriveServiceEvents, clearHalt, isErrorMsg, isStop,
      isKeyError]

/-- Witness for the amended claim C4 at the two degenerate configurations. -/
theorem claim4_amended_witness :
    (clearHalt (runApp ⟨some (), none⟩) = true ∧
     (runApp ⟨some (), none⟩).any isStoreCall = false ∧
     (runApp ⟨some (), none⟩).any isWidget = false) ∧
    (clearHalt (runApp ⟨none, some "root"⟩) = false ∧
     (runApp ⟨none, some "root"⟩).any isKeyError = true) :=
  ⟨(claim4_amended ⟨some (), none⟩).1 (Or.inl rfl),
   (claim4_amended ⟨none, some "root"⟩).2.2 ⟨rfl, "root", rfl, by decide⟩⟩

/-- Membership in an insertion by name is membership in the inserted
element or the list. -/
theorem mem_insertByName {f g : DriveFile} {l : List DriveFile} :
    g ∈ insertByName f l ↔ g = f ∨ g ∈ l := by
  induction l with
  | nil => simp [insertByName]
  | cons h t ih =>
    rw [insertByName]
    by_cases hle : nameLeChars f.name h.name
    · simp [hle]
    · simp only [if_neg hle, List.mem_cons, ih]
      tauto

/-- Sorting by name preserves membership. -/
theorem mem_sortByName {g : DriveFile} {l : List DriveFile} :
    g ∈ sortByName l ↔ g ∈ l := by
  induction l with
  | nil => rfl
  | cons h t ih => simp [sortByName, mem_insertByName, ih]

/-- Claim C9: the request `list_subfolders` passes to the FileStore orders
by name, and its filter selects exactly the non-trashed folder children of
the root, so every returned entry is a non-trashed folder having the root
among its parents. -/
theorem claim9_subfolders (store : List DriveFile) (rootId : List Char) (f : DriveFile) :
    (listSubfoldersReq rootId).orderBy = "name" ∧
    (f ∈ list_subfolders store rootId →
      f.mimeType = "application/vnd.google-apps.folder".toList ∧
      f.trashed = false ∧ rootId ∈ f.parents) := by
  refine ⟨rfl, ?_⟩
  intro h
  unfold list_subfolders fileStoreList at h
  have h2 := List.mem_of_mem_take h
  rw [List.mem_filter] at h2
  have hq := h2.2
  simp only [listSubfoldersReq, subfoldersQ, Bool.and_eq_true, decide_eq_true_eq] at hq
  obtain ⟨⟨hpar, hmime⟩, htr⟩ := hq
  refine ⟨hmime, htr, ?_⟩
  simpa using hpar

/-- Witness for claim C9 on a concrete three-entry store. -/
theorem claim9_subfolders_witness :
    (listSubfoldersReq "r".toList).orderBy = "name" ∧
    ((⟨"a".toList, "B".toList, "application/vnd.google-apps.folder".toList, false,
        ["r".toList]⟩ : DriveFile).mimeType
        = "application/vnd.google-apps.folder".toList ∧
     (⟨"a".toList, "B".toList, "application/vnd.google-apps.folder".toList, false,
        ["r".toList]⟩ : DriveFile).trashed = false ∧
     "r".toList ∈ (⟨"a".toList, "B".toList,
        "application/vnd.google-apps.folder".toList, false,
        ["r".toList]⟩ : DriveFile).parents) :=
  ⟨(claim9_subfolders [] "r".toList
      ⟨"a".toList, "B".toList, "application/vnd.google-apps.folder".toList, false,
        ["r".toList]⟩).1,
   (claim9_subfolders
      [⟨"a".toList, "B".toList, "application/vnd.google-apps.folder".toList, false,
         ["r".toList]⟩,
       ⟨"b".toList, "A".toList, "application/vnd.google-apps.folder".toList, true,
         ["r".toList]⟩,
       ⟨"c".toList, "C".toList, "text/plain".toList, false, ["r".toList]⟩]
      "r".toList
      ⟨"a".toList, "B".toList, "application/vnd.google-apps.folder".toList, false,
        ["r".toList]⟩).2 (by decide)⟩

end DriveAudio
